import Mathlib

-- Batteries marks the `Rat` field operations `@[irreducible]`; the
-- pipeline arithmetic is carried out on `ℚ`, so make them reducible in
-- this file so that concrete runs evaluate inside `decide`/`rfl`.
attribute [local semireducible] Rat.add Rat.mul Rat.inv Rat.sub Rat.ofScientific

/-!
Shallow embedding of the UMD2 conversion pipeline (`src/umd2.py`).

The pipeline reads raw text lines, parses headers / token frames,
integrates a fringe counter into a displacement, conditions the signal
(EMA, moving average, environmental compensation, angle transform),
applies an emission filter (on-step policy + decimation), and emits
sample records and optional FFT spectral records to a primary stream.

Python floats are modelled as rationals (`ℚ`) for the arithmetic the
pipeline performs (additions, multiplications, divisions by nonzero
constants); the transcendental angle transform (`math.asin`) and the
FFT magnitude computation are modelled over `ℝ` in a separate layer.
Python ints are `ℤ`.  The I/O side (stdout serialization, CSV vs JSON
encoding, log files, serial port) is modelled as the list of records
written to the primary stream; the encoding choice `--out` selects a
serializer but not which records reach the stream.
-/

namespace UMD2

/-- Whitespace class of Python's `str.strip` and of `\s` in the regexes
(ASCII range; input lines are ASCII). -/
def isPySpace (c : Char) : Bool :=
  c = ' ' || c = '\t' || c = '\n' || c = '\r' || c = '\x0b' || c = '\x0c'

/-- ASCII letter, the `[A-Za-z]` class of `Tok_RE`. -/
def isAsciiLetter (c : Char) : Bool :=
  ('A' ≤ c && c ≤ 'Z') || ('a' ≤ c && c ≤ 'z')

/-- ASCII digit, the `[0-9]` / `\d` class. -/
def isAsciiDigit (c : Char) : Bool :=
  '0' ≤ c && c ≤ '9'

/-- Word character for the `\b` boundary in `Tok_RE` (`[A-Za-z0-9_]`). -/
def isWordChar (c : Char) : Bool :=
  isAsciiLetter c || isAsciiDigit c || c = '_'

/-- Python `str.strip()`: drop leading and trailing whitespace. -/
def pyStrip (s : String) : String :=
  String.mk (((s.data.dropWhile isPySpace).reverse.dropWhile isPySpace).reverse)

/-- Numeric value of a list of ASCII digit characters, most significant first. -/
def digitsToNat (ds : List Char) : ℕ :=
  ds.foldl (fun acc c => acc * 10 + (c.toNat - '0'.toNat)) 0

/-- Value of an integer digit string followed by an optional fraction
digit string: `intpart.fracpart` as an exact rational. -/
def numValue (intDs fracDs : List Char) : ℚ :=
  (digitsToNat intDs : ℚ) + (digitsToNat fracDs : ℚ) / ((10 : ℚ) ^ fracDs.length)

/-- Case-insensitive literal match (the regexes are compiled with
`re.IGNORECASE`): consume `pat` from the front of `cs`, returning the
rest on success. `pat` is given in lowercase. -/
def matchCI : List Char → List Char → Option (List Char)
  | [], cs => some cs
  | _ :: _, [] => none
  | p :: ps, c :: cs => if c.toLower = p then matchCI ps cs else none

/-- `HeaderFS_RE = ^\s*Sample\s+Frequency\s*=\s*([0-9]+(?:\.[0-9]+)?)\s*Hz\s*$`
(case-insensitive), returning the captured number as in
`maybe_extract_fs` (the `float()` conversion never fails on a string
matched by this group). -/
def maybe_extract_fs (line : String) : Option ℚ := do
  let cs := line.data.dropWhile isPySpace
  let cs ← matchCI "sample".data cs
  -- `\s+`: at least one whitespace character
  match cs with
  | [] => none
  | c :: rest =>
    if isPySpace c then do
      let cs := rest.dropWhile isPySpace
      let cs ← matchCI "frequency".data cs
      let cs := cs.dropWhile isPySpace
      let cs ← match cs with
        | '=' :: r => some r
        | _ => none
      let cs := cs.dropWhile isPySpace
      let intDs := cs.takeWhile isAsciiDigit
      let cs := cs.dropWhile isAsciiDigit
      if intDs.isEmpty then none else do
      -- optional `(?:\.[0-9]+)?`, greedy; taking it when possible never
      -- forecloses a match of the `\s*Hz\s*$` tail
      let (fracDs, cs) := match cs with
        | '.' :: r =>
          let f := r.takeWhile isAsciiDigit
          if f.isEmpty then ([], '.' :: r) else (f, r.dropWhile isAsciiDigit)
        | r => ([], r)
      let cs := cs.dropWhile isPySpace
      let cs ← matchCI "hz".data cs
      let cs := cs.dropWhile isPySpace
      if cs.isEmpty then some (numValue intDs fracDs) else none
    else none

/-- One attempted match of `Tok_RE = ([A-Za-z]+)\s*:\s*(-?\d+(?:\.\d+)?)\b`
at the head of `cs`.  Returns the uppercased key, the numeric value and
the remaining characters after the match.  Backtracking over the greedy
digit groups only ever succeeds by dropping the whole fraction part
(a shorter digit run ends before another digit, which is a word
character, so `\b` fails there). -/
def tryTok (cs : List Char) : Option (String × ℚ × List Char) := do
  let letters := cs.takeWhile isAsciiLetter
  let r := cs.dropWhile isAsciiLetter
  if letters.isEmpty then none else do
  let r := r.dropWhile isPySpace
  let r ← match r with
    | ':' :: rest => some rest
    | _ => none
  let r := r.dropWhile isPySpace
  let (neg, r) := match r with
    | '-' :: rest => (true, rest)
    | rest => (false, rest)
  let intDs := r.takeWhile isAsciiDigit
  let r := r.dropWhile isAsciiDigit
  if intDs.isEmpty then none else do
  let key := String.mk (letters.map Char.toUpper)
  let mkVal : List Char → ℚ := fun fracDs =>
    if neg then -(numValue intDs fracDs) else numValue intDs fracDs
  let boundary : List Char → Bool := fun rest =>
    match rest with
    | [] => true
    | c :: _ => !(isWordChar c)
  match r with
  | '.' :: r2 =>
    let fracDs := r2.takeWhile isAsciiDigit
    let r3 := r2.dropWhile isAsciiDigit
    if fracDs.isEmpty then
      -- no fraction possible; `\b` after the int part sees '.', a
      -- non-word character, so it holds
      some (key, mkVal [], '.' :: r2)
    else if boundary r3 then
      some (key, mkVal fracDs, r3)
    else
      -- fraction fails the boundary; fall back to the bare int part,
      -- whose following character '.' satisfies `\b`
      some (key, mkVal [], '.' :: r2)
  | r =>
    if boundary r then some (key, mkVal [], r) else none

/-- `re.findall` scan of `Tok_RE` over the line: try a match at each
position, on success continue after the matched text, on failure
advance one character.  Fuelled by the remaining length (every step
consumes at least one character, so the fuel never runs out when
started at `cs.length`). -/
def scanTokensF : ℕ → List Char → List (String × ℚ)
  | 0, _ => []
  | _, [] => []
  | fuel + 1, c :: rest =>
    match tryTok (c :: rest) with
    | some (k, v, remaining) => (k, v) :: scanTokensF fuel remaining
    | none => scanTokensF fuel rest

/-- `parse_line_tokens`: all `Tok_RE` matches of the line in scan order,
keys uppercased.  The `float/int` conversion in the source never raises
on text matched by the numeric group, so no pair is dropped.  The dict
semantics (`out[k] = v`, last occurrence wins) are recovered by
`tokGet`. -/
def parse_line_tokens (line : String) : List (String × ℚ) :=
  scanTokensF line.data.length line.data

/-- Dictionary lookup over the scan list: the value of the LAST
occurrence of `k`, as in repeated `out[k] = v` assignment. -/
def tokGet (toks : List (String × ℚ)) (k : String) : Option ℚ :=
  (toks.reverse.find? (fun p => p.1 = k)).map Prod.snd

/-- `k in toks`. -/
def tokHas (toks : List (String × ℚ)) (k : String) : Bool :=
  (tokGet toks k).isSome

/-- Python `int()` on a numeric value: truncation toward zero. -/
def pyInt (q : ℚ) : ℤ :=
  if 0 ≤ q then ⌊q⌋ else -⌊-q⌋

/-- Truthiness of `if fs_found:` where `fs_found` is `None` or a float:
`None` and `0.0` are falsy. -/
def pyTruthy (o : Option ℚ) : Bool :=
  match o with
  | none => false
  | some v => v ≠ 0

/-- `--emit` choices. -/
inductive EmitPolicy where
  | every
  | onstep
  deriving DecidableEq, Repr

/-- `--mode` choices. -/
inductive Mode where
  | displacement
  | angle
  deriving DecidableEq, Repr

/-- `--fft-signal` choices. -/
inductive Signal where
  | x
  | v
  deriving DecidableEq, Repr

/-- `--out` choices. -/
inductive OutFmt where
  | jsonl
  | csv
  deriving DecidableEq, Repr

/-- The startup tunables of `parse_args` that reach the conversion
pipeline, with the source's defaults.  Source selection, `--baud`,
`--log` and `--raw-log` are I/O plumbing outside the modelled stream. -/
structure Config where
  fs : ℚ := 0
  emit : EmitPolicy := EmitPolicy.every
  decimate : ℤ := 1
  stepnm : Option ℚ := none
  lambda_nm : ℚ := 632991 / 1000
  scale_div : ℤ := 8
  startnm : ℚ := 0
  straight_mult : ℚ := 1
  mode : Mode := Mode.displacement
  angle_norm_nm : ℚ := 1
  angle_corr : ℚ := 1
  ema_alpha : ℚ := 0
  ma_window : ℤ := 0
  env_temp : Option ℚ := none
  env_temp0 : Option ℚ := none
  env_ktemp : ℚ := 0
  env_press : Option ℚ := none
  env_press0 : Option ℚ := none
  env_kpress : ℚ := 0
  env_hum : Option ℚ := none
  env_hum0 : Option ℚ := none
  env_khum : ℚ := 0
  fft_len : ℤ := 0
  fft_every : ℤ := 0
  fft_signal : Signal := Signal.x
  enable_xy : Bool := false
  out : OutFmt := OutFmt.jsonl
  deriving DecidableEq, Repr

/-- `clamp(val, lo, hi)`. -/
def clamp (val lo hi : ℚ) : ℚ :=
  if val < lo then lo else if val > hi then hi else val

/-- `compute_step_nm`: explicit nm-per-count override, else
wavelength / division (division clamped below at 1). -/
def compute_step_nm (cfg : Config) : ℚ :=
  match cfg.stepnm with
  | some s => s
  | none => cfg.lambda_nm / (max 1 cfg.scale_div : ℤ)

/-- `apply_env`: product of per-axis linear factors, each included only
when measured and reference are both set and the coefficient is
nonzero. -/
def apply_env (x_nm : ℚ) (cfg : Config) : ℚ :=
  let scale : ℚ := 1
  let scale := match cfg.env_temp, cfg.env_temp0 with
    | some t, some t0 =>
      if cfg.env_ktemp ≠ 0 then scale * (1 + cfg.env_ktemp * (t - t0)) else scale
    | _, _ => scale
  let scale := match cfg.env_press, cfg.env_press0 with
    | some p, some p0 =>
      if cfg.env_kpress ≠ 0 then scale * (1 + cfg.env_kpress * (p - p0)) else scale
    | _, _ => scale
  let scale := match cfg.env_hum, cfg.env_hum0 with
    | some h, some h0 =>
      if cfg.env_khum ≠ 0 then scale * (1 + cfg.env_khum * (h - h0)) else scale
    | _, _ => scale
  x_nm * scale

/-- `angle_from_displacement`: guarded against a zero normalization,
then `asin(clamp(x/norm, -1, 1)) * corr * 57.296`.  The literal
`57.296` of the source is the rational `7162/125`, not the real
`180/π`. -/
noncomputable def angle_from_displacement (x_nm : ℚ) (cfg : Config) : ℝ :=
  if cfg.angle_norm_nm = 0 then 0
  else Real.arcsin (clamp (x_nm / cfg.angle_norm_nm) (-1) 1 : ℚ) *
    (cfg.angle_corr : ℝ) * (57296 / 1000 : ℝ)

/-- The mutable pipeline state of `main`'s loop: the local variables
that persist across lines. -/
structure PState where
  fs_hz : ℚ
  prevD : Option ℤ
  x_nm : ℚ
  ema_x : Option ℚ
  ma_buf : List ℚ
  fft_buf : List ℚ
  emitted : ℤ
  deriving DecidableEq, Repr

/-- State at loop entry: `fs_hz = args.fs if args.fs > 0 else 0.0`,
`x_nm = args.startnm`, everything else empty. -/
def initState (cfg : Config) : PState :=
  { fs_hz := if cfg.fs > 0 then cfg.fs else 0
    prevD := none
    x_nm := cfg.startnm
    ema_x := none
    ma_buf := []
    fft_buf := []
    emitted := 0 }

/-- A Sample Record as built in `rec = {...}` — every field the
serializers see except `angle_deg`, which involves `asin` and is added
by the real-valued view `recAngle` below. -/
structure SampleRec where
  seq : ℤ
  fs_hz : ℚ
  D : ℤ
  deltaD : ℤ
  step_nm : ℚ
  x_nm : ℚ
  v_nm_s : ℚ
  x_nm_ema : Option ℚ
  x_nm_ma : Option ℚ
  x_nm_env : ℚ
  x2 : Option ℚ
  y2 : Option ℚ
  deriving DecidableEq, Repr

/-- The `angle_deg` field of a Sample Record: computed only in angle
mode, `None` (null) in displacement mode, as in the
`if args.mode == "angle"` block. -/
noncomputable def recAngle (cfg : Config) (r : SampleRec) : Option ℝ :=
  if cfg.mode = Mode.angle then some (angle_from_displacement r.x_nm cfg) else none

/-- A Spectral Record (`{"type":"fft",...}`).  `slice` is the
`fft_buf[-fft_len:]` input to the Hann window / rfft; the serialized
`mag` array is the noncomputable `specMag` of `slice` (transcendental,
defined in the real-valued layer). -/
structure SpecRec where
  signal : Signal
  fs_hz : ℚ
  freq : List ℚ
  slice : List ℚ
  deriving DecidableEq, Repr

/-- One line written to the primary stream (stdout): a Sample Record
row/object or a Spectral Record object. -/
inductive OutRec where
  | sample (r : SampleRec)
  | fft (s : SpecRec)
  deriving DecidableEq, Repr

/-- The last `n` elements of a list, `xs[-n:]`. -/
def lastN (n : ℕ) (xs : List ℚ) : List ℚ :=
  xs.drop (xs.length - n)

/-- `np.fft.rfftfreq(n, d)`: `[0, 1, ..., n//2] / (d*n)`. -/
def rfftfreq (n : ℕ) (d : ℚ) : List ℚ :=
  (List.range (n / 2 + 1)).map (fun k : ℕ => (k : ℚ) / (d * n))

/-- `D` resolution with preference DIFF > D; `None` when neither key is
present (the line is then discarded). `int()` truncates. -/
def resolveD (toks : List (String × ℚ)) : Option ℤ :=
  match tokGet toks "DIFF" with
  | some v => some (pyInt v)
  | none =>
    match tokGet toks "D" with
    | some v => some (pyInt v)
    | none => none

/-- `if fs_hz <= 0.0: fs_hz = 1000.0` — the per-frame fallback, which
persists in the state. -/
def fallbackFs (st : PState) : ℚ :=
  if st.fs_hz ≤ 0 then 1000 else st.fs_hz

/-- `dD`: `0` on the very first valid frame (`prevD is None`), else
`D - prevD`. -/
def frameDelta (st : PState) (D : ℤ) : ℤ :=
  match st.prevD with
  | none => 0
  | some p => D - p

/-- `dx = step_nm_per_count * dD`. -/
def frameDx (cfg : Config) (st : PState) (D : ℤ) : ℚ :=
  compute_step_nm cfg * (frameDelta st D : ℚ)

/-- `x_nm = (x_nm + dx) * args.straight_mult` — the multiplier is
reapplied to the whole running total. -/
def frameX (cfg : Config) (st : PState) (D : ℤ) : ℚ :=
  (st.x_nm + frameDx cfg st D) * cfg.straight_mult

/-- The EMA state after this frame: seeded or decayed when
`ema_alpha > 0`, untouched otherwise. -/
def nextEma (cfg : Config) (st : PState) (x' : ℚ) : Option ℚ :=
  if cfg.ema_alpha > 0 then
    match st.ema_x with
    | none => some x'
    | some e0 => some (cfg.ema_alpha * x' + (1 - cfg.ema_alpha) * e0)
  else st.ema_x

/-- The moving-average deque after this frame: append with
`maxlen = ma_window` when the window is on, untouched otherwise.  (The
deque-resize branch in the source never fires for a fixed config: the
deque was constructed with that same maxlen.) -/
def nextMaBuf (cfg : Config) (st : PState) (x' : ℚ) : List ℚ :=
  if cfg.ma_window > 0 then lastN cfg.ma_window.toNat (st.ma_buf ++ [x'])
  else st.ma_buf

/-- The `rec = {...}` dictionary built for a resolved frame (all fields
but `angle_deg`, for which see `recAngle`). -/
def frameRecord (cfg : Config) (st : PState) (D N : ℤ) (x2 y2 : Option ℚ) :
    SampleRec :=
  let fs1 := fallbackFs st
  let dx := frameDx cfg st D
  let x' := frameX cfg st D
  { seq := N, fs_hz := fs1, D := D, deltaD := frameDelta st D, step_nm := dx,
    x_nm := x', v_nm_s := dx * fs1,
    x_nm_ema := if cfg.ema_alpha > 0 then nextEma cfg st x' else none,
    x_nm_ma :=
      if cfg.ma_window > 0 then
        some ((nextMaBuf cfg st x').sum / ((nextMaBuf cfg st x').length : ℚ))
      else none,
    x_nm_env := apply_env x' cfg, x2 := x2, y2 := y2 }

/-- Stage 1 of the Emission Filter: `"every"` keeps all samples,
`"onstep"` keeps only `dD != 0`. -/
def keepStage1 (cfg : Config) (dD : ℤ) : Bool :=
  match cfg.emit with
  | EmitPolicy.every => true
  | EmitPolicy.onstep => dD ≠ 0

/-- The stage-1 pass counter `emitted` after this frame: incremented
once per sample that survives the emit policy, before the decimation
test reads it. -/
def nextEmitted (cfg : Config) (st : PState) (D : ℤ) : ℤ :=
  if keepStage1 cfg (frameDelta st D) then st.emitted + 1 else st.emitted

/-- The full Emission Filter verdict: stage 1, then
`if args.decimate > 1 and (emitted % args.decimate) != 0: keep = False`. -/
def keepFrame (cfg : Config) (st : PState) (D : ℤ) : Bool :=
  keepStage1 cfg (frameDelta st D) &&
    !(decide (cfg.decimate > 1) && decide (nextEmitted cfg st D % cfg.decimate ≠ 0))

/-- `if args.fft_len > 0 and args.fft_every > 0` — the gate on the
whole FFT block. -/
def fftEnabled (cfg : Config) : Bool :=
  decide (cfg.fft_len > 0) && decide (cfg.fft_every > 0)

/-- `sigval = x_nm if args.fft_signal == "x" else v_nm_s`. -/
def fftSignalVal (cfg : Config) (r : SampleRec) : ℚ :=
  if cfg.fft_signal = Signal.x then r.x_nm else r.v_nm_s

/-- `len(fft_buf) >= args.fft_len and (emitted % args.fft_every) == 0`
— whether a spectral snapshot fires for this kept sample. -/
def fftFires (cfg : Config) (fbuf : List ℚ) (emitted' : ℤ) : Bool :=
  decide (fbuf.length ≥ cfg.fft_len.toNat) && decide (emitted' % cfg.fft_every = 0)

/-- The Spectral Record built when the snapshot fires: the last
`fft_len` buffered values, `rfftfreq` bins with
`d = 1/fs_hz if fs_hz > 0 else 0.001` (the second arm is unreachable
after the 1000-Hz fallback).  The `mag` array is `specMag` of the
slice. -/
def mkSpec (cfg : Config) (fsv : ℚ) (fbuf : List ℚ) : SpecRec :=
  let slice := lastN cfg.fft_len.toNat fbuf
  let d : ℚ := if fsv > 0 then 1 / fsv else 1 / 1000
  { signal := cfg.fft_signal, fs_hz := fsv,
    freq := rfftfreq slice.length d, slice := slice }

/-- The loop body of `main` from the resolved counter on: integration,
conditioning, the emission filter and the FFT block.  Returns the
successor state and the records written to the primary stream.  In the
source the FFT block runs whenever numpy imports; the spectral
dependency is modelled as available. -/
def processFrame (cfg : Config) (st : PState) (D N : ℤ) (x2 y2 : Option ℚ) :
    PState × List OutRec :=
  let x' := frameX cfg st D
  let emitted' := nextEmitted cfg st D
  let st' : PState :=
    { fs_hz := fallbackFs st, prevD := some D, x_nm := x',
      ema_x := nextEma cfg st x', ma_buf := nextMaBuf cfg st x',
      fft_buf := st.fft_buf, emitted := emitted' }
  if keepFrame cfg st D then
    let r := frameRecord cfg st D N x2 y2
    if fftEnabled cfg then
      let fbuf := st.fft_buf ++ [fftSignalVal cfg r]
      let spec : List OutRec :=
        if fftFires cfg fbuf emitted' then [OutRec.fft (mkSpec cfg r.fs_hz fbuf)]
        else []
      ({ st' with fft_buf := fbuf }, OutRec.sample r :: spec)
    else
      (st', [OutRec.sample r])
  else
    (st', [])

/-- One iteration of `main`'s `for raw in source` loop: the raw-log
mirror is I/O only; the processed log repeats the primary stream's
Sample Records.  Strip the line, try the header pattern (with Python
truthiness, so a parsed `0.0` falls through), scan tokens, resolve the
counter, and hand the frame to `processFrame`. -/
def stepLine (cfg : Config) (st : PState) (raw : String) : PState × List OutRec :=
  let line := pyStrip raw
  if line = "" then (st, [])
  else
    let fs_found := maybe_extract_fs line
    if pyTruthy fs_found then
      ({ st with fs_hz := fs_found.getD 0 }, [])
    else
      let toks := parse_line_tokens line
      match resolveD toks with
      | none => (st, [])
      | some D =>
        processFrame cfg st D (pyInt ((tokGet toks "N").getD 0))
          (if cfg.enable_xy then tokGet toks "X" else none)
          (if cfg.enable_xy then tokGet toks "Y" else none)

/-- The whole pipeline on a finite line source: fold `stepLine` over
the input, concatenating the primary-stream records in order. -/
def runPipeline (cfg : Config) (lines : List String) : PState × List OutRec :=
  lines.foldl
    (fun acc raw =>
      let next := stepLine cfg acc.1 raw
      (next.1, acc.2 ++ next.2))
    (initState cfg, [])

/-- The records of a run's primary stream. -/
def runOut (cfg : Config) (lines : List String) : List OutRec :=
  (runPipeline cfg lines).2

/-- Project a primary-stream line to its Sample Record, when it is one. -/
def sampleOf : OutRec → Option SampleRec
  | OutRec.sample r => some r
  | OutRec.fft _ => none

/-- Project a primary-stream line to its Spectral Record, when it is one. -/
def spectralOf : OutRec → Option SpecRec
  | OutRec.sample _ => none
  | OutRec.fft s => some s

/-- The Sample Records of a primary stream, in order. -/
def samples (out : List OutRec) : List SampleRec :=
  out.filterMap sampleOf

/-- The Spectral Records of a primary stream, in order. -/
def spectrals (out : List OutRec) : List SpecRec :=
  out.filterMap spectralOf

/-- `np.hanning(M)`: `0.5 - 0.5*cos(2*pi*n/(M-1))` for `n < M`, with
`np.hanning(1) = [1]` and `np.hanning(0) = []`. -/
noncomputable def hanning (M : ℕ) : List ℝ :=
  if M = 1 then [1]
  else (List.range M).map
    (fun n : ℕ => 1 / 2 - 1 / 2 * Real.cos (2 * Real.pi * n / ((M : ℝ) - 1)))

/-- Magnitudes of `np.fft.rfft`: `|Σ_j xs_j · exp(-2πi·jk/n)|` for
`k ≤ n/2`. -/
noncomputable def rfftMag (xs : List ℝ) : List ℝ :=
  (List.range (xs.length / 2 + 1)).map
    (fun k : ℕ => Complex.abs (∑ j ∈ Finset.range xs.length,
      (xs.getD j 0 : ℂ) *
        Complex.exp (-2 * Real.pi * Complex.I * (j : ℂ) * (k : ℂ) / (xs.length : ℂ))))

/-- The `mag` array of a Spectral Record: the Hann-windowed slice's
rfft magnitudes (`mag = np.abs(np.fft.rfft(buf * np.hanning(len(buf))))`). -/
noncomputable def specMag (s : SpecRec) : List ℝ :=
  rfftMag (List.zipWith (fun a b => a * b)
    (s.slice.map (fun q => (q : ℝ))) (hanning s.slice.length))

/-- All startup defaults (`parse_args` with no flags). -/
def cfgDefault : Config := {}

/-- The configuration of the spec's §8 scenario (claim C1):
`emit=onstep, decimate=1, lambda_nm=632.991, scale_div=8`. -/
def c1Config : Config :=
  { emit := EmitPolicy.onstep, decimate := 1,
    lambda_nm := 632991 / 1000, scale_div := 8 }

/-- The five input lines of the spec's §8 scenario. -/
def c1Lines : List String :=
  ["Sample Frequency = 2000 Hz", "N:1 D:100", "N:2 D:105", "N:3 D:105", "N:4 D:110"]

/-- A configuration with a nonzero baseline and a straightness
multiplier other than 1 (claim C2's counterexample). -/
def c2Config : Config := { startnm := 1, straight_mult := 2 }

/-- The Sample Record `stepLine` emits for `"D:5"` from the fresh
default state (first valid frame). -/
def c2wRec : SampleRec :=
  { seq := 0, fs_hz := 1000, D := 5, deltaD := 0, step_nm := 0, x_nm := 0,
    v_nm_s := 0, x_nm_ema := none, x_nm_ma := none, x_nm_env := 0,
    x2 := none, y2 := none }

/-- CSV output with the FFT feature enabled (claim C3's
counterexample). -/
def c3Config : Config :=
  { out := OutFmt.csv, fft_len := 1, fft_every := 1, stepnm := some 1 }

/-- Decimation 2 with FFT cadence 2 (claim C4's counterexample: the
cadence counter counts pre-decimation survivors). -/
def c4Config : Config :=
  { decimate := 2, fft_len := 1, fft_every := 2, stepnm := some 1, fs := 1000 }

/-- FFT length 4, cadence 1 (claim C4's witness configuration). -/
def c4wCfg : Config := { fft_len := 4, fft_every := 1, stepnm := some 1 }

/-- A mid-run state whose FFT buffer already holds three values. -/
def c4wSt : PState :=
  { fs_hz := 1000, prevD := some 0, x_nm := 0, ema_x := none, ma_buf := [],
    fft_buf := [1, 2, 3], emitted := 0 }

/-- The Spectral Record emitted for `"D:1"` from `c4wSt` under
`c4wCfg`. -/
def c4wSpec : SpecRec :=
  { signal := Signal.x, fs_hz := 1000, freq := [0, 250, 500], slice := [1, 2, 3, 1] }

/-- Angle mode with baseline 1 (claim C6's counterexample reaches
`x_nm = 1`, where `asin` gives exactly `π/2`). -/
def c6Config : Config := { mode := Mode.angle, startnm := 1 }

/-- The Sample Record emitted for `"D:0"` from the fresh state under
`c6Config`. -/
def c6Rec : SampleRec :=
  { seq := 0, fs_hz := 1000, D := 0, deltaD := 0, step_nm := 0, x_nm := 1,
    v_nm_s := 0, x_nm_ema := none, x_nm_ma := none, x_nm_env := 1,
    x2 := none, y2 := none }

/-- Modelled from the spec's words, for the refinement comparison of
claim C6 only: the angle formula stated with the exact mathematical
constant `180/π` (the source uses the literal `57.296`). -/
noncomputable def angleSpecFormula (x_nm : ℚ) (cfg : Config) : ℝ :=
  Real.arcsin (clamp (x_nm / cfg.angle_norm_nm) (-1) 1 : ℚ) *
    (cfg.angle_corr : ℝ) * (180 / Real.pi)

/-- Angle mode with a nontrivial normalization and correction (claim
C6's witness configuration). -/
def c6wCfg : Config := { mode := Mode.angle, angle_norm_nm := 2, angle_corr := 3 }

/-- A state with a nonzero sample frequency already in effect (claim
C7's counterexample: a "Sample Frequency = 0 Hz" line must not change
it). -/
def c7St : PState :=
  { fs_hz := 500, prevD := none, x_nm := 0, ema_x := none, ma_buf := [],
    fft_buf := [], emitted := 0 }

/-- The Sample Record `stepLine` emits for `"D:4"` from the fresh
default state. -/
def c9wRec : SampleRec :=
  { seq := 0, fs_hz := 1000, D := 4, deltaD := 0, step_nm := 0, x_nm := 0,
    v_nm_s := 0, x_nm_ema := none, x_nm_ma := none, x_nm_env := 0,
    x2 := none, y2 := none }

/-- Angle mode with a zero angle normalization (claim C10). -/
def c10wCfg : Config := { mode := Mode.angle, angle_norm_nm := 0 }

/-! ## Helper lemmas -/

/-- A Sample Record in `processFrame`'s output is the frame's
`frameRecord` — the emission filter selects, it never rewrites. -/
lemma mem_sample_processFrame {cfg : Config} {st : PState} {D N : ℤ}
    {x2 y2 : Option ℚ} {r : SampleRec}
    (h : OutRec.sample r ∈ (processFrame cfg st D N x2 y2).2) :
    r = frameRecord cfg st D N x2 y2 := by
  simp only [processFrame] at h
  split at h
  · split at h
    · simp only [List.mem_cons] at h
      rcases h with h | h
      · exact ((OutRec.sample.injEq _ _).mp h).symm ▸ rfl
      · split at h <;> simp_all
    · simp_all
  · simp_all

/-- `stepLine` either writes nothing (blank line, header line, or no
resolvable counter) or delegates the resolved frame to `processFrame`. -/
lemma stepLine_out_cases (cfg : Config) (st : PState) (raw : String) :
    (stepLine cfg st raw).2 = [] ∨
    ∃ D, resolveD (parse_line_tokens (pyStrip raw)) = some D ∧
      stepLine cfg st raw =
        processFrame cfg st D (pyInt ((tokGet (parse_line_tokens (pyStrip raw)) "N").getD 0))
          (if cfg.enable_xy then tokGet (parse_line_tokens (pyStrip raw)) "X" else none)
          (if cfg.enable_xy then tokGet (parse_line_tokens (pyStrip raw)) "Y" else none) := by
  simp only [stepLine]
  split
  · exact Or.inl rfl
  · split
    · exact Or.inl rfl
    · split
      · exact Or.inl rfl
      · next D hD => exact Or.inr ⟨D, hD, rfl⟩

/-- With no environmental factor active, `apply_env` is the identity. -/
lemma apply_env_neutral (cfg : Config) (x : ℚ)
    (h : (cfg.env_temp = none ∨ cfg.env_temp0 = none) ∧
         (cfg.env_press = none ∨ cfg.env_press0 = none) ∧
         (cfg.env_hum = none ∨ cfg.env_hum0 = none)) :
    apply_env x cfg = x := by
  unfold apply_env
  rcases h with ⟨h1, h2, h3⟩
  rcases h1 with h1 | h1 <;> rcases h2 with h2 | h2 <;> rcases h3 with h3 | h3 <;>
    simp [h1, h2, h3]

/-- The state `processFrame` hands back: integrated position, stored
counter, stage-1 pass counter, and the (possibly fallen-back) rate. -/
lemma processFrame_state (cfg : Config) (st : PState) (D N : ℤ) (x2 y2 : Option ℚ) :
    (processFrame cfg st D N x2 y2).1.x_nm = frameX cfg st D ∧
    (processFrame cfg st D N x2 y2).1.prevD = some D ∧
    (processFrame cfg st D N x2 y2).1.emitted = nextEmitted cfg st D ∧
    (processFrame cfg st D N x2 y2).1.fs_hz = fallbackFs st := by
  simp only [processFrame]
  split
  · split
    · simp
    · simp
  · simp

/-- Taking the last `n` of at least `n` elements yields `n` elements. -/
lemma lastN_length_of_le {n : ℕ} {xs : List ℚ} (h : n ≤ xs.length) :
    (lastN n xs).length = n := by
  simp only [lastN, List.length_drop]
  omega

/-- Number of frequency bins: `n//2 + 1`. -/
lemma rfftfreq_length (n : ℕ) (d : ℚ) : (rfftfreq n d).length = n / 2 + 1 := by
  unfold rfftfreq
  rw [List.length_map, List.length_range]

/-- A Spectral Record built from a buffer holding at least `fft_len`
values has `fft_len/2 + 1` frequency bins. -/
lemma mkSpec_freq_length {cfg : Config} {fsv : ℚ} {fbuf : List ℚ}
    (h : cfg.fft_len.toNat ≤ fbuf.length) :
    (mkSpec cfg fsv fbuf).freq.length = cfg.fft_len.toNat / 2 + 1 := by
  simp only [mkSpec]
  rw [rfftfreq_length, lastN_length_of_le h]

/-- Every Spectral Record a frame emits has `fft_len/2 + 1` bins. -/
lemma fft_freq_processFrame {cfg : Config} {st : PState} {D N : ℤ}
    {x2 y2 : Option ℚ} {s : SpecRec}
    (h : OutRec.fft s ∈ (processFrame cfg st D N x2 y2).2) :
    s.freq.length = cfg.fft_len.toNat / 2 + 1 := by
  simp only [processFrame] at h
  split at h
  · split at h
    · simp only [List.mem_cons] at h
      rcases h with h | h
      · exact absurd h (by simp)
      · split at h
        · next hcond =>
          simp only [fftFires, Bool.and_eq_true, decide_eq_true_eq] at hcond
          simp only [List.mem_singleton] at h
          rw [OutRec.fft.injEq] at h
          subst h
          exact mkSpec_freq_length hcond.1
        · simp at h
    · simp at h
  · simp at h

/-- A frame writes a Sample Record exactly when the Emission Filter
keeps it. -/
lemma sample_exists_iff_keep (cfg : Config) (st : PState) (D N : ℤ) (x2 y2 : Option ℚ) :
    (∃ r, OutRec.sample r ∈ (processFrame cfg st D N x2 y2).2) ↔
      keepFrame cfg st D = true := by
  simp only [processFrame]
  split
  · next hk =>
    split
    · simp [hk]
    · simp [hk]
  · next hk =>
    simp only [Bool.not_eq_true] at hk
    simp [hk]

/-- With the FFT block enabled, a frame writes a Spectral Record
exactly when it is kept and the snapshot condition fires on the
appended buffer and the stage-1 pass counter. -/
lemma fft_exists_iff_fires (cfg : Config) (st : PState) (D N : ℤ) (x2 y2 : Option ℚ)
    (hen : fftEnabled cfg = true) :
    (∃ s, OutRec.fft s ∈ (processFrame cfg st D N x2 y2).2) ↔
      (keepFrame cfg st D = true ∧
        fftFires cfg (st.fft_buf ++ [fftSignalVal cfg (frameRecord cfg st D N x2 y2)])
          (nextEmitted cfg st D) = true) := by
  simp only [processFrame, hen, if_true]
  split
  · next hk =>
    constructor
    · intro ⟨s, hs⟩
      simp only [List.mem_cons] at hs
      rcases hs with hs | hs
      · exact absurd hs (by simp)
      · split at hs
        · next hf => exact ⟨hk, hf⟩
        · simp at hs
    · intro ⟨_, hf⟩
      rw [if_pos hf]
      exact ⟨mkSpec cfg (frameRecord cfg st D N x2 y2).fs_hz
        (st.fft_buf ++ [fftSignalVal cfg (frameRecord cfg st D N x2 y2)]), by simp⟩
  · next hk =>
    simp only [Bool.not_eq_true] at hk
    simp [hk]

/-- The FFT buffer grows by the signal value only for samples kept with
the block enabled; otherwise it is untouched. -/
lemma processFrame_fftbuf (cfg : Config) (st : PState) (D N : ℤ) (x2 y2 : Option ℚ) :
    (processFrame cfg st D N x2 y2).1.fft_buf =
      if keepFrame cfg st D && fftEnabled cfg then
        st.fft_buf ++ [fftSignalVal cfg (frameRecord cfg st D N x2 y2)]
      else st.fft_buf := by
  simp only [processFrame]
  split
  · next hk =>
    split
    · next hf => simp [hk, hf]
    · next hf =>
      simp only [Bool.not_eq_true] at hf
      simp [hk, hf]
  · next hk =>
    simp only [Bool.not_eq_true] at hk
    simp [hk]

/-- The `--out` encoding selects a serializer; it does not change which
records reach the primary stream. -/
lemma runPipeline_out_irrel (cfg : Config) (o : OutFmt) (lines : List String) :
    runPipeline { cfg with out := o } lines = runPipeline cfg lines := by
  cases cfg
  rfl

/-- A non-blank, non-header line whose tokens resolve a counter is
handed to `processFrame`. -/
lemma stepLine_known (cfg : Config) (st : PState) (raw : String) (D : ℤ)
    (h1 : pyStrip raw ≠ "")
    (h2 : pyTruthy (maybe_extract_fs (pyStrip raw)) = false)
    (h3 : resolveD (parse_line_tokens (pyStrip raw)) = some D) :
    stepLine cfg st raw =
      processFrame cfg st D (pyInt ((tokGet (parse_line_tokens (pyStrip raw)) "N").getD 0))
        (if cfg.enable_xy then tokGet (parse_line_tokens (pyStrip raw)) "X" else none)
        (if cfg.enable_xy then tokGet (parse_line_tokens (pyStrip raw)) "Y" else none) := by
  simp only [stepLine, h2]
  rw [if_neg h1]
  simp only [Bool.false_eq_true, if_false]
  rw [h3]

/-- Processing the line `"D:0"` from a state whose stored counter is
absent or `0` multiplies the running position by the straightness
multiplier and stores the counter `0`. -/
lemma stepLine_D0_state (cfg : Config) (st : PState)
    (h : st.prevD = none ∨ st.prevD = some 0) :
    (stepLine cfg st "D:0").1.x_nm = st.x_nm * cfg.straight_mult ∧
    (stepLine cfg st "D:0").1.prevD = some 0 := by
  rw [stepLine_known cfg st "D:0" 0 (by decide) (by decide) (by decide)]
  rw [(processFrame_state cfg st 0 _ _ _).1, (processFrame_state cfg st 0 _ _ _).2.1]
  refine ⟨?_, rfl⟩
  unfold frameX frameDx frameDelta
  rcases h with h | h <;> simp [h]

/-- Folding `n` copies of `"D:0"` multiplies the running position by
the straightness multiplier `n` times. -/
lemma foldl_D0_x (cfg : Config) : ∀ (n : ℕ) (st : PState) (out : List OutRec),
    (st.prevD = none ∨ st.prevD = some 0) →
    (((List.replicate n "D:0").foldl
        (fun acc raw =>
          let next := stepLine cfg acc.1 raw
          (next.1, acc.2 ++ next.2)) (st, out)).1.x_nm =
      st.x_nm * cfg.straight_mult ^ n) := by
  intro n
  induction n with
  | zero => intro st out _; simp
  | succ n ih =>
    intro st out h
    rw [List.replicate_succ, List.foldl_cons]
    have h2 := stepLine_D0_state cfg st h
    have h3 := ih (stepLine cfg st "D:0").1 (out ++ (stepLine cfg st "D:0").2) (Or.inr h2.2)
    simp only at h3 ⊢
    rw [h3, h2.1]
    ring

/-! Claim theorems -/

/-- C1.  Running the pipeline on the five scenario lines with
`emit=onstep, decimate=1, lambda_nm=632.991, scale_div=8` writes
exactly two records to the primary stream, the Sample Records of the
frames `N=2` and `N=4`, each with `deltaD = 5` and `fs_hz = 2000` (the
first frame has `deltaD = 0` and the `N=3` frame repeats its counter,
so `onstep` drops both). -/
theorem c1_scenario_onstep_two_records :
    (samples (runOut c1Config c1Lines)).map (fun r => (r.seq, r.deltaD, r.fs_hz)) =
      [(2, 5, 2000), (4, 5, 2000)] ∧
    (runOut c1Config c1Lines).length = 2 := by
  decide

/-- C2 counterexample.  With `startnm = 1` and `straight_mult = 2`, the
first valid frame emits `deltaD = 0` but `x_nm = 2`: the first sample's
position is the baseline times the straightness multiplier, not the
configured baseline itself, so the claim's "no position change" part
fails. -/
theorem c2_first_sample_baseline_counterexample :
    (samples (runOut c2Config ["D:7"])).map (fun r => (r.deltaD, r.x_nm)) = [(0, 2)] ∧
    ¬ (samples (runOut c2Config ["D:7"])).map (fun r => r.x_nm) = [c2Config.startnm] := by
  decide

/-- C2 amended.  Every emitted Sample Record of a first valid frame
(`prev_counter` unset) has `deltaD = 0` and `dx = 0`, and its `x_nm` is
the prior running position times the straightness multiplier (equal to
the starting baseline only when the multiplier is 1); every emitted
record of a later frame has `deltaD = D − prev_counter`. -/
theorem c2_first_frame_delta_amended :
    ∀ (cfg : Config) (st : PState) (raw : String) (r : SampleRec),
    OutRec.sample r ∈ (stepLine cfg st raw).2 →
    (st.prevD = none →
      r.deltaD = 0 ∧ r.step_nm = 0 ∧ r.x_nm = st.x_nm * cfg.straight_mult) ∧
    (∀ p : ℤ, st.prevD = some p → r.deltaD = r.D - p) := by
  intro cfg st raw r h
  rcases stepLine_out_cases cfg st raw with hout | ⟨D, -, heq⟩
  · rw [hout] at h
    simp at h
  · rw [heq] at h
    have hr := mem_sample_processFrame h
    subst hr
    constructor
    · intro hp
      refine ⟨?_, ?_, ?_⟩
      · simp [frameRecord, frameDelta, hp]
      · simp [frameRecord, frameDx, frameDelta, hp]
      · simp [frameRecord, frameX, frameDx, frameDelta, hp]
    · intro p hp
      simp [frameRecord, frameDelta, frameDx, hp]

/-- C2 witness.  The first valid frame `"D:5"` from the fresh default
state emits `deltaD = 0`, `dx = 0` and the unchanged baseline. -/
theorem c2_first_frame_delta_amended_witness :
    c2wRec.deltaD = 0 ∧ c2wRec.step_nm = 0 ∧
      c2wRec.x_nm = (initState cfgDefault).x_nm * cfgDefault.straight_mult :=
  (c2_first_frame_delta_amended cfgDefault (initState cfgDefault) "D:5" c2wRec
    (by decide)).1 rfl

/-- C3 counterexample.  A run configured with CSV output and the FFT
feature on writes a Spectral Record to the primary stream: the FFT
block prints its JSON line to stdout regardless of the encoding. -/
theorem c3_csv_spectral_counterexample :
    c3Config.out = OutFmt.csv ∧
    (spectrals (runOut c3Config ["D:0"])).length = 1 := by
  decide

/-- C3 amended.  Spectral Records reach the primary stream identically
under CSV and JSON output: the `--out` choice selects the Sample Record
serializer only, and the FFT block always writes to stdout. -/
theorem c3_spectral_encoding_amended :
    ∀ (cfg : Config) (lines : List String),
    spectrals (runOut { cfg with out := OutFmt.csv } lines) =
      spectrals (runOut { cfg with out := OutFmt.jsonl } lines) := by
  intro cfg lines
  unfold runOut
  rw [runPipeline_out_irrel cfg OutFmt.csv lines,
    runPipeline_out_irrel cfg OutFmt.jsonl lines]

/-- C4 counterexample.  With `decimate = 2` and `fft_every = 2`, the
run `["D:0", "D:1"]` keeps exactly one post-filter sample yet emits a
Spectral Record there, although the post-filter kept-count 1 is not a
multiple of `fft_every`: the cadence counter is the pre-decimation
stage-1 counter (here 2), not the post-filter count. -/
theorem c4_cadence_counterexample :
    (samples (runOut c4Config ["D:0", "D:1"])).length = 1 ∧
    (spectrals (runOut c4Config ["D:0", "D:1"])).length = 1 ∧
    c4Config.fft_every = 2 ∧ (1 : ℤ) % c4Config.fft_every ≠ 0 := by
  decide

/-- C4 amended.  With `fft_len > 0` and `fft_every > 0` (and the
spectral dependency available), every emitted Spectral Record has
`fft_len/2 + 1` frequency bins, and a line emits a Spectral Record
exactly when it emits a Sample Record, the FFT buffer (after appending
the signal value) holds at least `fft_len` values, and the stage-1 pass
counter — samples surviving the emit policy, counted before decimation,
not the post-filter kept-count — is a multiple of `fft_every`. -/
theorem c4_spectral_cadence_amended :
    ∀ (cfg : Config) (st : PState) (raw : String),
    0 < cfg.fft_len → 0 < cfg.fft_every →
    (∀ s : SpecRec, OutRec.fft s ∈ (stepLine cfg st raw).2 →
      s.freq.length = cfg.fft_len.toNat / 2 + 1) ∧
    ((∃ s : SpecRec, OutRec.fft s ∈ (stepLine cfg st raw).2) ↔
      ((∃ r : SampleRec, OutRec.sample r ∈ (stepLine cfg st raw).2) ∧
        cfg.fft_len.toNat ≤ (stepLine cfg st raw).1.fft_buf.length ∧
        (stepLine cfg st raw).1.emitted % cfg.fft_every = 0)) := by
  intro cfg st raw hl he
  have hen : fftEnabled cfg = true := by
    simp [fftEnabled, hl, he]
  rcases stepLine_out_cases cfg st raw with hout | ⟨D, -, heq⟩
  · rw [hout]
    refine ⟨fun s hs => absurd hs (by simp), ?_⟩
    constructor
    · rintro ⟨s, hs⟩
      simp at hs
    · rintro ⟨⟨r, hr⟩, -, -⟩
      simp at hr
  · rw [heq]
    refine ⟨fun s hs => fft_freq_processFrame hs, ?_⟩
    rw [fft_exists_iff_fires _ _ _ _ _ _ hen, sample_exists_iff_keep]
    rw [(processFrame_state cfg st D _ _ _).2.2.1, processFrame_fftbuf]
    constructor
    · rintro ⟨hk, hf⟩
      simp only [fftFires, Bool.and_eq_true, decide_eq_true_eq] at hf
      rw [if_pos (by rw [hk, hen]; rfl)]
      exact ⟨hk, hf.1, hf.2⟩
    · rintro ⟨hk, hlen, hmod⟩
      rw [if_pos (by rw [hk, hen]; rfl)] at hlen
      refine ⟨hk, ?_⟩
      simp only [fftFires, Bool.and_eq_true, decide_eq_true_eq]
      exact ⟨hlen, hmod⟩

/-- C4 witness.  From a state with three buffered values, `"D:1"`
under `fft_len = 4, fft_every = 1` emits the concrete Spectral Record
`c4wSpec`, whose `freq` array has `4/2 + 1 = 3` bins. -/
theorem c4_spectral_cadence_amended_witness :
    c4wSpec.freq.length = c4wCfg.fft_len.toNat / 2 + 1 :=
  (c4_spectral_cadence_amended c4wCfg c4wSt "D:1" (by decide) (by decide)).1
    c4wSpec (by decide)

/-- C5.  On every resolved frame the running position is updated as
`cumulative_x_nm := (cumulative_x_nm + step_nm_per_count × deltaD) ×
straightness_multiplier` — the multiplier hits the entire running
total; consequently, after `n` valid frames with an unchanged counter
the starting baseline has been multiplied by the multiplier `n`
times. -/
theorem c5_straightness_compounding :
    (∀ (cfg : Config) (st : PState) (raw : String) (D : ℤ),
      pyStrip raw ≠ "" →
      pyTruthy (maybe_extract_fs (pyStrip raw)) = false →
      resolveD (parse_line_tokens (pyStrip raw)) = some D →
      (stepLine cfg st raw).1.x_nm =
        (st.x_nm + compute_step_nm cfg * (frameDelta st D : ℚ)) * cfg.straight_mult) ∧
    (∀ (cfg : Config) (n : ℕ),
      (runPipeline cfg (List.replicate n "D:0")).1.x_nm =
        cfg.startnm * cfg.straight_mult ^ n) := by
  constructor
  · intro cfg st raw D h1 h2 h3
    rw [stepLine_known cfg st raw D h1 h2 h3]
    rw [(processFrame_state cfg st D _ _ _).1]
    rfl
  · intro cfg n
    unfold runPipeline
    exact foldl_D0_x cfg n (initState cfg) [] (Or.inl rfl)

/-- C5 witness.  A concrete frame update from `c7St`, and the run of
three `"D:0"` lines under `straight_mult = 2`, which cubes the
multiplier on the baseline 1. -/
theorem c5_straightness_compounding_witness :
    (stepLine cfgDefault c7St "D:5").1.x_nm =
      (c7St.x_nm + compute_step_nm cfgDefault * (frameDelta c7St 5 : ℚ)) *
        cfgDefault.straight_mult ∧
    (runPipeline c2Config (List.replicate 3 "D:0")).1.x_nm =
      c2Config.startnm * c2Config.straight_mult ^ 3 :=
  ⟨c5_straightness_compounding.1 cfgDefault c7St "D:5" 5
      (by decide) (by decide) (by decide),
    c5_straightness_compounding.2 c2Config 3⟩

/-- C6 counterexample.  The record the pipeline emits in angle mode at
`x_nm = 1` carries `angle_deg = asin(1) · 57.296`, which differs from
the claim's `asin(1) · (180/π) = 90` exactly: the source constant
`57.296` is not the mathematical `180/π`. -/
theorem c6_angle_constant_counterexample :
    OutRec.sample c6Rec ∈ runOut c6Config ["D:0"] ∧
    recAngle c6Config c6Rec ≠ some (angleSpecFormula c6Rec.x_nm c6Config) := by
  refine ⟨by decide, ?_⟩
  intro h
  unfold recAngle angle_from_displacement angleSpecFormula at h
  norm_num [c6Config, c6Rec, clamp] at h
  rcases h with h | h
  · have hpos := Real.pi_pos
    field_simp at h
    linarith [Real.pi_gt_d6]
  · exact Real.pi_ne_zero h

/-- C6 amended.  In angle mode with a nonzero normalization every
Sample Record's `angle_deg` is
`asin(clamp(x_nm/angle_norm_nm, −1, 1)) × angle_corr × 57.296` — with
the literal constant `57.296`, not the exact `180/π`; with a zero
normalization it is `0`; in displacement mode it is null. -/
theorem c6_angle_formula_amended :
    ∀ (cfg : Config) (r : SampleRec),
    (cfg.mode = Mode.angle → cfg.angle_norm_nm ≠ 0 →
      recAngle cfg r =
        some (Real.arcsin ((clamp (r.x_nm / cfg.angle_norm_nm) (-1) 1 : ℚ) : ℝ) *
          (cfg.angle_corr : ℝ) * (57296 / 1000))) ∧
    (cfg.mode = Mode.angle → cfg.angle_norm_nm = 0 → recAngle cfg r = some 0) ∧
    (cfg.mode = Mode.displacement → recAngle cfg r = none) := by
  intro cfg r
  refine ⟨fun hm hn => ?_, fun hm hn => ?_, fun hm => ?_⟩
  · unfold recAngle angle_from_displacement
    rw [if_pos hm, if_neg hn]
  · unfold recAngle angle_from_displacement
    rw [if_pos hm, if_pos hn]
  · unfold recAngle
    rw [if_neg (by simp [hm])]

/-- C6 witness.  The amended formula evaluated at a concrete angle-mode
configuration with normalization 2 and correction 3. -/
theorem c6_angle_formula_amended_witness :
    recAngle c6wCfg c6Rec =
      some (Real.arcsin ((clamp (c6Rec.x_nm / c6wCfg.angle_norm_nm) (-1) 1 : ℚ) : ℝ) *
        (c6wCfg.angle_corr : ℝ) * (57296 / 1000)) :=
  (c6_angle_formula_amended c6wCfg c6Rec).1 rfl (by decide)

/-- C7 counterexample.  The header pattern accepts the value 0
(`maybe_extract_fs` returns `some 0`), but the driver's Python
truthiness test treats `0.0` as false, so the line falls through to
data handling and is discarded with `sample_frequency_hz` unchanged —
the claim's "including 0" fails. -/
theorem c7_zero_header_counterexample :
    maybe_extract_fs "Sample Frequency = 0 Hz" = some 0 ∧
    stepLine cfgDefault c7St "Sample Frequency = 0 Hz" = (c7St, []) ∧
    c7St.fs_hz = 500 := by
  decide

/-- C7 amended.  For every line whose stripped text matches the header
pattern with a nonzero value `v`, processing updates
`sample_frequency_hz` to `v`, produces no record, and leaves the rest
of the state untouched; a header announcing `0` falls through to
data-line handling and updates nothing. -/
theorem c7_header_updates_fs_amended :
    ∀ (cfg : Config) (st : PState) (raw : String) (v : ℚ),
    maybe_extract_fs (pyStrip raw) = some v → v ≠ 0 →
    stepLine cfg st raw = ({ st with fs_hz := v }, []) := by
  intro cfg st raw v hv hvne
  have hne : pyStrip raw ≠ "" := by
    intro h0
    rw [h0] at hv
    have hnone : maybe_extract_fs "" = none := rfl
    rw [hnone] at hv
    exact Option.noConfusion hv
  simp only [stepLine]
  rw [if_neg hne, hv]
  simp [pyTruthy, hvne]

/-- C7 witness.  The scenario header updates a 500-Hz state to
2000 Hz and writes nothing. -/
theorem c7_header_updates_fs_amended_witness :
    stepLine cfgDefault c7St "Sample Frequency = 2000 Hz" =
      ({ c7St with fs_hz := 2000 }, []) :=
  c7_header_updates_fs_amended cfgDefault c7St "Sample Frequency = 2000 Hz" 2000
    (by decide) (by decide)

/-- C8.  A non-blank, non-header line whose token set has neither
`DIFF` nor `D` is discarded silently — the step returns the state
unchanged in every component and writes nothing; and when `DIFF` is
present it is preferred over `D` as the resolved counter. -/
theorem c8_missing_counter_noop :
    (∀ (cfg : Config) (st : PState) (raw : String),
      pyStrip raw ≠ "" →
      pyTruthy (maybe_extract_fs (pyStrip raw)) = false →
      tokGet (parse_line_tokens (pyStrip raw)) "DIFF" = none →
      tokGet (parse_line_tokens (pyStrip raw)) "D" = none →
      stepLine cfg st raw = (st, [])) ∧
    (∀ (toks : List (String × ℚ)) (v : ℚ),
      tokGet toks "DIFF" = some v → resolveD toks = some (pyInt v)) := by
  constructor
  · intro cfg st raw h1 h2 h3 h4
    have hres : resolveD (parse_line_tokens (pyStrip raw)) = none := by
      unfold resolveD
      rw [h3, h4]
    simp only [stepLine]
    rw [if_neg h1, h2]
    simp [hres]
  · intro toks v hv
    unfold resolveD
    rw [hv]

/-- C8 witness.  `"hello world"` (no `LETTERS:NUMBER` group at all)
leaves the state untouched, and a token set holding both keys resolves
to the `DIFF` value. -/
theorem c8_missing_counter_noop_witness :
    stepLine cfgDefault c7St "hello world" = (c7St, []) ∧
    resolveD [("DIFF", 7), ("D", 3)] = some 7 :=
  ⟨c8_missing_counter_noop.1 cfgDefault c7St "hello world"
      (by decide) (by decide) (by decide) (by decide),
    c8_missing_counter_noop.2 [("DIFF", 7), ("D", 3)] 7 (by decide)⟩

/-- C9.  Every emitted Sample Record carries
`x_nm_env = apply_env(x_nm)` — always computed, never null — and when
no environmental axis has both its measured and reference values
configured, `x_nm_env = x_nm` exactly. -/
theorem c9_env_neutrality :
    ∀ (cfg : Config) (st : PState) (raw : String) (r : SampleRec),
    OutRec.sample r ∈ (stepLine cfg st raw).2 →
    r.x_nm_env = apply_env r.x_nm cfg ∧
    (((cfg.env_temp = none ∨ cfg.env_temp0 = none) ∧
      (cfg.env_press = none ∨ cfg.env_press0 = none) ∧
      (cfg.env_hum = none ∨ cfg.env_hum0 = none)) → r.x_nm_env = r.x_nm) := by
  intro cfg st raw r h
  rcases stepLine_out_cases cfg st raw with hout | ⟨D, -, heq⟩
  · rw [hout] at h
    simp at h
  · rw [heq] at h
    have hr := mem_sample_processFrame h
    subst hr
    constructor
    · simp [frameRecord]
    · intro henv
      have hneu := apply_env_neutral cfg (frameX cfg st D) henv
      simp [frameRecord, hneu]

/-- C9 witness.  The record of `"D:4"` from the fresh default state
(no compensation configured) has `x_nm_env` computed and equal to
`x_nm`. -/
theorem c9_env_neutrality_witness :
    c9wRec.x_nm_env = apply_env c9wRec.x_nm cfgDefault ∧
      c9wRec.x_nm_env = c9wRec.x_nm :=
  have h := c9_env_neutrality cfgDefault (initState cfgDefault) "D:4" c9wRec (by decide)
  ⟨h.1, h.2 (by decide)⟩

/-- C10.  With `angle_norm_nm = 0` the angle transform is total and
never divides: it returns `0.0` for every displacement, and in angle
mode every record's `angle_deg` is `0.0` rather than an error. -/
theorem c10_zero_norm_angle_safe :
    ∀ (cfg : Config) (x : ℚ) (r : SampleRec), cfg.angle_norm_nm = 0 →
    angle_from_displacement x cfg = 0 ∧
    (cfg.mode = Mode.angle → recAngle cfg r = some 0) := by
  intro cfg x r h
  constructor
  · unfold angle_from_displacement
    rw [if_pos h]
  · intro hm
    unfold recAngle angle_from_displacement
    rw [if_pos hm, if_pos h]

/-- C10 witness.  The zero-normalization angle-mode configuration at
displacement 5. -/
theorem c10_zero_norm_angle_safe_witness :
    angle_from_displacement 5 c10wCfg = 0 ∧ recAngle c10wCfg c6Rec = some 0 :=
  have h := c10_zero_norm_angle_safe c10wCfg 5 c6Rec rfl
  ⟨h.1, h.2 rfl⟩

end UMD2
